import Mathlib

/-!
# Verification of the oilers-analytics analytic core

Shallow embedding of the repository's analytics layer
(`analytics.ts` — Corsi/Fenwick/PDO/xG/flow — and
`client/src/utils/rinkCoordinates.ts` — coordinate normalization and time
helpers), together with proofs of the specification's testable properties.

Conventions of the embedding:
* JS numbers that only ever hold exact small integers or are consumed by
  exact rational arithmetic are modelled as `ℕ`, `ℤ` or `ℚ`; the xG
  estimator, which uses `Math.sqrt`/`Math.atan2`, is modelled over `ℝ`.
* JS `NaN` results are modelled as `none : Option _`.
* `Array.prototype.sort` (stable per the ECMAScript specification) is
  modelled by `List.insertionSort`, which is a stable sort, with the
  source's comparator turned into the corresponding total preorder.
-/

namespace OilersAnalytics

/-- The `Shot` record of `types/hockey.ts`.  The TypeScript `type` field is
declared as a union of four string literals, but the analytics code compares
it against string lists at runtime (`CORSI_EVENTS.includes(shot.type as ...)`),
so it is modelled as an arbitrary `String`. -/
structure Shot where
  eventId : ℕ
  period : ℤ
  time : String
  type : String
  x : ℚ
  y : ℚ
  shooterId : Option ℕ := none
  shooterName : Option String := none
  shotType : Option String := none
  xG : Option ℚ := none
  deriving DecidableEq, Repr

/-- The `CorsiFlowPoint` record of `types/hockey.ts`. -/
structure CorsiFlowPoint where
  period : ℤ
  time : String
  timeRemaining : String
  type : String
  homeCorsi : ℕ
  awayCorsi : ℕ
  differential : ℤ
  deriving DecidableEq, Repr

/-- `CORSI_EVENTS` from `analytics.ts`. -/
def CORSI_EVENTS : List String := ["shot-on-goal", "missed-shot", "blocked-shot", "goal"]

/-- `FENWICK_EVENTS` from `analytics.ts` (excludes blocked shots). -/
def FENWICK_EVENTS : List String := ["shot-on-goal", "missed-shot", "goal"]

/-- `calculateCorsiFor` from `analytics.ts`: count of shots whose `type` is a
Corsi event. -/
def calculateCorsiFor (shots : List Shot) : ℕ :=
  (shots.filter (fun shot => CORSI_EVENTS.contains shot.type)).length

/-- `calculateFenwickFor` from `analytics.ts`: count of shots whose `type` is
a Fenwick event. -/
def calculateFenwickFor (shots : List Shot) : ℕ :=
  (shots.filter (fun shot => FENWICK_EVENTS.contains shot.type)).length

/-- `calculateCorsiPercent` from `analytics.ts`. -/
def calculateCorsiPercent (corsiFor corsiAgainst : ℚ) : ℚ :=
  let total := corsiFor + corsiAgainst
  if total = 0 then 50 else (corsiFor / total) * 100

/-- `calculateFenwickPercent` from `analytics.ts`. -/
def calculateFenwickPercent (fenwickFor fenwickAgainst : ℚ) : ℚ :=
  let total := fenwickFor + fenwickAgainst
  if total = 0 then 50 else (fenwickFor / total) * 100

/-- `calculatePDO` from `analytics.ts`: shooting percentage plus save
percentage, with the zero-shot fallbacks from the source
(`shotsFor > 0 ? ... : 0`, `shotsAgainst > 0 ? ... : 100`). -/
def calculatePDO (goalsFor shotsFor goalsAgainst shotsAgainst : ℚ) : ℚ :=
  let shootingPct := if shotsFor > 0 then (goalsFor / shotsFor) * 100 else 0
  let savePct :=
    if shotsAgainst > 0 then ((shotsAgainst - goalsAgainst) / shotsAgainst) * 100 else 100
  shootingPct + savePct

/-- `calculateGoalsForPercent` from `analytics.ts`. -/
def calculateGoalsForPercent (goalsFor goalsAgainst : ℚ) : ℚ :=
  let total := goalsFor + goalsAgainst
  if total = 0 then 50 else (goalsFor / total) * 100

/-! ## Coordinate mapper and time helpers (`rinkCoordinates.ts`)

JS string primitives used by the source (`split(':')`, `Number(...)`,
`toString()`, `padStart(2, '0')`, `localeCompare`) are embedded at the
level of character lists so that every definition is structurally
recursive (and hence evaluable by `decide`). -/

/-- Model of JS `String.prototype.split` with a single-character separator:
the character sequence is cut at every occurrence of `sep`; empty pieces are
preserved, and the empty string yields `[[]]` (JS: `"".split(':') == [""]`). -/
def splitOnCharFn (sep : Char) : List Char → List (List Char)
  | [] => [[]]
  | c :: cs =>
      let r := splitOnCharFn sep cs
      if c = sep then [] :: r
      else
        match r with
        | [] => [[c]]
        | piece :: pieces => (c :: piece) :: pieces

/-- JS `time.split(':')` on a string value. -/
def jsSplitColon (s : String) : List String :=
  (splitOnCharFn ':' s.data).map String.mk

/-- Accumulator loop reading a decimal digit sequence; any non-digit
character makes the whole parse fail (JS `Number` gives `NaN` there). -/
def parseDigitsAux : ℕ → List Char → Option ℕ
  | acc, [] => some acc
  | acc, c :: cs =>
      if c.isDigit then parseDigitsAux (10 * acc + (c.toNat - 48)) cs else none

/-- Model of JS `Number(s)` restricted to the string shapes this repository
feeds it (decimal digit strings and arbitrary malformed text): `none`
represents `NaN`; the empty string parses to `0` (JS: `Number('') == 0`);
a nonempty all-digit string parses to its decimal value; any other string
is `NaN`.  Signs, whitespace, fractions and exponents never occur in the
repository's clock strings and are outside the model. -/
def jsNumber (s : String) : Option ℕ :=
  if s.data = [] then some 0 else parseDigitsAux 0 s.data

/-- JS `str.padStart(2, '0')`: already-long-enough strings are unchanged,
shorter ones are left-padded with zeros. -/
def padStart2 (s : String) : String :=
  if 2 ≤ s.length then s else String.mk (List.replicate (2 - s.length) '0') ++ s

/-- Decimal representation of a count, zero-padded to width two
(JS `n.toString().padStart(2, '0')`). -/
def pad2 (n : ℕ) : String := padStart2 (toString n)

/-- The canonical zero-padded "MM:SS" string with the given minute and
second components. -/
def clockString (m s : ℕ) : String := pad2 m ++ ":" ++ pad2 s

/-- A well-formed zero-padded "MM:SS" clock string: two decimal digits of
minutes (hence minutes ≤ 99), a colon, and two decimal digits of seconds
reading a valid second count (≤ 59). -/
def WellFormedClock (t : String) : Prop :=
  ∃ m s : ℕ, m ≤ 99 ∧ s ≤ 59 ∧ t = clockString m s

/-- `timeToSeconds` from `rinkCoordinates.ts`:
`const [minutes, seconds] = time.split(':').map(Number);
 return (period - 1) * 20 * 60 + minutes * 60 + seconds;`.
JS array destructuring reads elements `0` and `1` (missing elements are
`undefined`, which poisons the arithmetic like `NaN`); a `NaN` component
makes the result `NaN`, i.e. `none`. -/
def timeToSeconds (time : String) (period : ℤ) : Option ℤ :=
  match ((jsSplitColon time).map jsNumber).getD 0 none,
        ((jsSplitColon time).map jsNumber).getD 1 none with
  | some minutes, some seconds =>
      some ((period - 1) * (20 * 60) + (minutes : ℤ) * 60 + (seconds : ℤ))
  | _, _ => none

/-- `secondsToTime` from `rinkCoordinates.ts`:
`Math.floor(totalSeconds / 60)` and `totalSeconds % 60`, each rendered with
`toString().padStart(2, '0')`.  Modelled on natural numbers, where JS
floor-division and remainder agree with `Nat.div`/`Nat.mod`; every call
site feeds it a nonnegative total. -/
def secondsToTime (totalSeconds : ℕ) : String :=
  padStart2 (toString (totalSeconds / 60)) ++ ":" ++ padStart2 (toString (totalSeconds % 60))

/-- `normalizeToAttackingZone` from `rinkCoordinates.ts`: reflect points
with `x < 0` through the rink center, leave the rest unchanged. -/
def normalizeToAttackingZone (x y : ℚ) : ℚ × ℚ :=
  if x < 0 then (-x, -y) else (x, y)

/-! ## Corsi flow builder (`generateCorsiFlow` in `analytics.ts`) -/

/-- The `'home' | 'away'` tag attached by `generateCorsiFlow` before
merging the two shot lists. -/
inductive Team where
  | home
  | away
  deriving DecidableEq, Repr

/-- A shot spread together with its team tag (`{ ...s, team: 'home' }`). -/
structure TaggedShot extends Shot where
  team : Team
  deriving DecidableEq, Repr

/-- Lexicographic comparison of character sequences; models JS
`a.localeCompare(b) <= 0` on the digit/colon clock strings this code
compares (for such strings locale collation is plain code-point order). -/
def charListLe : List Char → List Char → Bool
  | [], _ => true
  | _ :: _, [] => false
  | a :: as, b :: bs => if a = b then charListLe as bs else decide (a < b)

/-- String comparison used by the sort comparator. -/
def timeLe (s t : String) : Bool := charListLe s.data t.data

/-- Strict counterpart of `charListLe`. -/
def charListLt : List Char → List Char → Bool
  | [], [] => false
  | [], _ :: _ => true
  | _ :: _, [] => false
  | a :: as, b :: bs => if a = b then charListLt as bs else decide (a < b)

/-- Strict string comparison (for stating strict chronological ordering). -/
def timeLt (s t : String) : Bool := charListLt s.data t.data

/-- The chronological key of a tagged shot: `(period, clockTime)`. -/
def shotKey (s : TaggedShot) : ℤ × String := (s.period, s.time)

/-- The chronological key of a flow point: `(period, time)`. -/
def pointKey (p : CorsiFlowPoint) : ℤ × String := (p.period, p.time)

/-- Weak chronological order on keys: earlier period first, ties broken by
string comparison of the clock time. -/
def keyLe (k₁ k₂ : ℤ × String) : Prop :=
  k₁.1 < k₂.1 ∨ (k₁.1 = k₂.1 ∧ timeLe k₁.2 k₂.2 = true)

/-- Strict chronological order on keys. -/
def keyLt (k₁ k₂ : ℤ × String) : Prop :=
  k₁.1 < k₂.1 ∨ (k₁.1 = k₂.1 ∧ timeLt k₁.2 k₂.2 = true)

instance keyLe.instDecidable : DecidableRel keyLe := fun k₁ k₂ =>
  inferInstanceAs (Decidable (k₁.1 < k₂.1 ∨ (k₁.1 = k₂.1 ∧ timeLe k₁.2 k₂.2 = true)))

instance keyLt.instDecidable : DecidableRel keyLt := fun k₁ k₂ =>
  inferInstanceAs (Decidable (k₁.1 < k₂.1 ∨ (k₁.1 = k₂.1 ∧ timeLt k₁.2 k₂.2 = true)))

/-- The total preorder induced by the source's sort comparator
`(a, b) => a.period !== b.period ? a.period - b.period
         : a.time.localeCompare(b.time)`:
earlier period first, ties broken by string comparison of `time`. -/
def shotOrder (a b : TaggedShot) : Prop :=
  keyLe (shotKey a) (shotKey b)

instance shotOrder.instDecidable : DecidableRel shotOrder := fun a b =>
  keyLe.instDecidable (shotKey a) (shotKey b)

/-- The pass over the sorted-and-filtered shots: increment the counter of
the shot's side, then emit a snapshot point.  This is the `.map` closure of
`generateCorsiFlow` with the two mutable counters made explicit. -/
def corsiFlowAux : ℕ → ℕ → List TaggedShot → List CorsiFlowPoint
  | _, _, [] => []
  | homeCorsi, awayCorsi, shot :: rest =>
      let newHome := if shot.team = Team.home then homeCorsi + 1 else homeCorsi
      let newAway := if shot.team = Team.home then awayCorsi else awayCorsi + 1
      { period := shot.period, time := shot.time, timeRemaining := shot.time,
        type := shot.type, homeCorsi := newHome, awayCorsi := newAway,
        differential := (newHome : ℤ) - (newAway : ℤ) } :: corsiFlowAux newHome newAway rest

/-- `generateCorsiFlow` from `analytics.ts`: tag and merge the two lists,
sort chronologically (JS `Array.prototype.sort` is stable, modelled by
`List.insertionSort`), keep the Corsi events, and emit running-count
snapshots. -/
def generateCorsiFlow (homeShots awayShots : List Shot) : List CorsiFlowPoint :=
  let allShots :=
    homeShots.map (fun s => TaggedShot.mk s Team.home) ++
      awayShots.map (fun s => TaggedShot.mk s Team.away)
  let sorted := List.insertionSort shotOrder allShots
  corsiFlowAux 0 0 (sorted.filter (fun shot => CORSI_EVENTS.contains shot.type))

/-! ## Expected-goals estimator (`estimateXG` in `analytics.ts`)

`Math.sqrt`/`Math.atan2` force this part of the embedding onto `ℝ`;
JS `Math.atan2(y, x)` is the argument of the complex number `x + y*I`. -/

/-- JS `Math.atan2(y, x)`. -/
noncomputable def jsAtan2 (y x : ℝ) : ℝ := Complex.arg ⟨x, y⟩

/-- The `typeMultipliers` record lookup with its `|| 1.0` fallback
(no table entry is `0`, so falsiness only fires for missing keys). -/
def typeMultiplier (t : String) : ℚ :=
  if t = "slap" then 0.9
  else if t = "snap" then 1.1
  else if t = "wrist" then 1.0
  else if t = "backhand" then 0.8
  else if t = "tip-in" then 1.3
  else if t = "deflected" then 1.2
  else if t = "wrap-around" then 0.6
  else 1.0

/-- `estimateXG` from `analytics.ts`: distance/angle heuristic with a
shot-type multiplier, clamped into `[0.01, 0.95]`.  The optional `shotType`
parameter is an `Option`; JS applies the multiplier only when the argument
is truthy, and an empty string (falsy) skips the lookup — but the lookup's
fallback for `""` is `1.0`, so modelling `some ""` through the lookup is
behaviourally identical. -/
noncomputable def estimateXG (x y : ℝ) (shotType : Option String) : ℝ :=
  let goalX : ℝ := 89
  let goalY : ℝ := 0
  let distance := Real.sqrt ((|x| - goalX) ^ 2 + (y - goalY) ^ 2)
  let angle := |jsAtan2 y (goalX - |x|)| * (180 / Real.pi)
  let base := max 0 (0.4 - distance * 0.008)
  let withAngle := base * (1 - (angle / 90) * 0.5)
  let withType :=
    match shotType with
    | some t => withAngle * (typeMultiplier t.toLower : ℝ)
    | none => withAngle
  min (max withType 0.01) 0.95

/-! ## Order-theoretic facts about the sort comparator -/

theorem charListLe_total : ∀ as bs : List Char, charListLe as bs = true ∨ charListLe bs as = true
  | [], _ => Or.inl rfl
  | _ :: _, [] => Or.inr rfl
  | a :: as, b :: bs => by
    by_cases h : a = b
    · subst h
      simpa [charListLe] using charListLe_total as bs
    · rcases lt_or_gt_of_ne h with hlt | hgt
      · exact Or.inl (by simp [charListLe, h, hlt])
      · exact Or.inr (by simp [charListLe, Ne.symm h, hgt])

theorem charListLe_trans :
    ∀ as bs cs : List Char,
      charListLe as bs = true → charListLe bs cs = true → charListLe as cs = true
  | [], _, _ => fun _ _ => rfl
  | _ :: _, [], _ => fun h _ => by simp [charListLe] at h
  | _ :: _, _ :: _, [] => fun _ h => by simp [charListLe] at h
  | a :: as, b :: bs, c :: cs => fun h₁ h₂ => by
    by_cases hab : a = b <;> by_cases hbc : b = c
    · subst hab; subst hbc
      simp only [charListLe, if_pos rfl] at h₁ h₂ ⊢
      exact charListLe_trans as bs cs h₁ h₂
    · subst hab
      simpa [charListLe, hbc] using h₂
    · subst hbc
      simpa [charListLe, hab] using h₁
    · simp only [charListLe, if_neg hab, if_neg hbc, decide_eq_true_eq] at h₁ h₂
      have hac : a < c := lt_trans h₁ h₂
      simp [charListLe, ne_of_lt hac, hac]

theorem keyLe_total (k₁ k₂ : ℤ × String) : keyLe k₁ k₂ ∨ keyLe k₂ k₁ := by
  rcases lt_trichotomy k₁.1 k₂.1 with h | h | h
  · exact Or.inl (Or.inl h)
  · rcases charListLe_total k₁.2.data k₂.2.data with ht | ht
    · exact Or.inl (Or.inr ⟨h, ht⟩)
    · exact Or.inr (Or.inr ⟨h.symm, ht⟩)
  · exact Or.inr (Or.inl h)

theorem keyLe_trans {k₁ k₂ k₃ : ℤ × String} (h₁ : keyLe k₁ k₂) (h₂ : keyLe k₂ k₃) :
    keyLe k₁ k₃ := by
  rcases h₁ with h₁ | ⟨e₁, t₁⟩ <;> rcases h₂ with h₂ | ⟨e₂, t₂⟩
  · exact Or.inl (lt_trans h₁ h₂)
  · exact Or.inl (e₂ ▸ h₁)
  · exact Or.inl (e₁ ▸ h₂)
  · exact Or.inr ⟨e₁.trans e₂, charListLe_trans _ _ _ t₁ t₂⟩

instance : IsTotal TaggedShot shotOrder :=
  ⟨fun a b => keyLe_total (shotKey a) (shotKey b)⟩

instance : IsTrans TaggedShot shotOrder :=
  ⟨fun _ _ _ h₁ h₂ => keyLe_trans h₁ h₂⟩

/-! ## Structural lemmas about the flow-building pass -/

theorem corsiFlowAux_map_pointKey :
    ∀ (l : List TaggedShot) (h a : ℕ),
      (corsiFlowAux h a l).map pointKey = l.map shotKey
  | [], _, _ => rfl
  | s :: rest, h, a => by
    simp only [corsiFlowAux, List.map_cons, List.cons.injEq]
    exact ⟨rfl, corsiFlowAux_map_pointKey rest _ _⟩

theorem corsiFlowAux_length :
    ∀ (l : List TaggedShot) (h a : ℕ), (corsiFlowAux h a l).length = l.length
  | [], _, _ => rfl
  | _ :: rest, h, a => by
    simp only [corsiFlowAux, List.length_cons]
    exact congrArg Nat.succ (corsiFlowAux_length rest _ _)

theorem corsiFlowAux_chain :
    ∀ (l : List TaggedShot) (h a : ℕ),
      (corsiFlowAux h a l).Chain'
        (fun p q => p.homeCorsi ≤ q.homeCorsi ∧ p.awayCorsi ≤ q.awayCorsi)
  | [], _, _ => List.chain'_nil
  | [_], _, _ => List.chain'_singleton _
  | s :: s' :: rest, h, a => by
    have ih := corsiFlowAux_chain (s' :: rest)
      (if s.team = Team.home then h + 1 else h)
      (if s.team = Team.home then a else a + 1)
    simp only [corsiFlowAux] at ih ⊢
    refine List.Chain'.cons ⟨?_, ?_⟩ ih <;>
      · dsimp only
        split <;> split <;> omega

theorem corsiFlowAux_differential :
    ∀ (l : List TaggedShot) (h a : ℕ) (p : CorsiFlowPoint),
      p ∈ corsiFlowAux h a l → p.differential = (p.homeCorsi : ℤ) - (p.awayCorsi : ℤ)
  | [], _, _, _ => by simp [corsiFlowAux]
  | s :: rest, h, a, p => by
    intro hp
    rcases List.mem_cons.mp hp with hp | hp
    · subst hp; rfl
    · exact corsiFlowAux_differential rest _ _ p hp

theorem corsiFlowAux_getLast :
    ∀ (l : List TaggedShot) (h a : ℕ) (p : CorsiFlowPoint),
      (corsiFlowAux h a l).getLast? = some p →
        p.homeCorsi = h + l.countP (fun s => decide (s.team = Team.home)) ∧
        p.awayCorsi = a + l.countP (fun s => decide (s.team = Team.away))
  | [], _, _, _ => by simp [corsiFlowAux]
  | [s], h, a, p => by
    intro hp
    simp only [corsiFlowAux, List.getLast?_singleton, Option.some.injEq] at hp
    subst hp
    cases ht : s.team <;> simp [List.countP_cons, ht]
  | s :: s' :: rest, h, a, p => by
    intro hp
    simp only [corsiFlowAux, List.getLast?_cons_cons] at hp
    have ih := corsiFlowAux_getLast (s' :: rest)
      (if s.team = Team.home then h + 1 else h)
      (if s.team = Team.home then a else a + 1) p
      (by simpa [corsiFlowAux] using hp)
    rcases ih with ⟨ih₁, ih₂⟩
    cases ht : s.team <;>
      simp [ht, List.countP_cons] at ih₁ ih₂ ⊢ <;> omega

/-! ## Parsing facts about the clock-string helpers -/

theorem splitOnCharFn_append (sep : Char) (cs ds : List Char) (h : sep ∉ cs) :
    splitOnCharFn sep (cs ++ sep :: ds) = cs :: splitOnCharFn sep ds := by
  induction cs with
  | nil => simp [splitOnCharFn]
  | cons c cs ih =>
    have hc : ¬ c = sep := fun hc => h (hc ▸ List.mem_cons_self c cs)
    have h' : sep ∉ cs := fun hs => h (List.mem_cons_of_mem c hs)
    simp [splitOnCharFn, hc, ih h']

theorem splitOnCharFn_no_sep (sep : Char) (cs : List Char) (h : sep ∉ cs) :
    splitOnCharFn sep cs = [cs] := by
  induction cs with
  | nil => rfl
  | cons c cs ih =>
    have hc : ¬ c = sep := fun hc => h (hc ▸ List.mem_cons_self c cs)
    have h' : sep ∉ cs := fun hs => h (List.mem_cons_of_mem c hs)
    simp [splitOnCharFn, hc, ih h']

theorem jsSplitColon_append (a b : String) (ha : ':' ∉ a.data) (hb : ':' ∉ b.data) :
    jsSplitColon (a ++ ":" ++ b) = [a, b] := by
  have hdata : (a ++ ":" ++ b).data = a.data ++ ':' :: b.data := by
    simp [String.data_append]
  unfold jsSplitColon
  rw [hdata, splitOnCharFn_append _ _ _ ha, splitOnCharFn_no_sep _ _ hb]
  simp

/-- For every two-digit-representable minute value, the zero-padded
rendering contains no separator and parses back to itself. -/
theorem pad2_parse : ∀ n : ℕ, n ≤ 99 → (':' ∉ (pad2 n).data ∧ jsNumber (pad2 n) = some n) := by
  decide

theorem timeToSeconds_clock (m s : ℕ) (hm : m ≤ 99) (hs : s ≤ 59) (p : ℤ) :
    timeToSeconds (clockString m s) p = some ((p - 1) * 1200 + (m : ℤ) * 60 + (s : ℤ)) := by
  obtain ⟨hm1, hm2⟩ := pad2_parse m hm
  obtain ⟨hs1, hs2⟩ := pad2_parse s (hs.trans (by norm_num))
  unfold timeToSeconds clockString
  rw [jsSplitColon_append _ _ hm1 hs1]
  simp only [List.map_cons, List.map_nil, hm2, hs2, List.getD_cons_zero, List.getD_cons_succ]
  norm_num

theorem secondsToTime_clock (m s : ℕ) (hs : s ≤ 59) :
    secondsToTime (m * 60 + s) = clockString m s := by
  unfold secondsToTime clockString pad2
  have h1 : (m * 60 + s) / 60 = m := by omega
  have h2 : (m * 60 + s) % 60 = s := by omega
  rw [h1, h2]

/-! ## Claim theorems -/

/-- C1: for every input `(x, y, shotType)` — any real coordinates and any
optional shot-type string — `estimateXG x y shotType` returns a value `p`
with `0.01 ≤ p ≤ 0.95`. -/
theorem estimateXG_bounds (x y : ℝ) (shotType : Option String) :
    0.01 ≤ estimateXG x y shotType ∧ estimateXG x y shotType ≤ 0.95 := by
  constructor
  · exact le_min (le_max_right _ _) (by norm_num)
  · exact min_le_right _ _

/-- C3: for every finite list of shot events,
`calculateFenwickFor events ≤ calculateCorsiFor events`. -/
theorem fenwickFor_le_corsiFor (shots : List Shot) :
    calculateFenwickFor shots ≤ calculateCorsiFor shots := by
  unfold calculateFenwickFor calculateCorsiFor
  rw [← List.countP_eq_length_filter, ← List.countP_eq_length_filter]
  apply List.countP_mono_left
  intro s _ h
  have h' : s.type ∈ FENWICK_EVENTS := by simpa using h
  have hc : s.type ∈ CORSI_EVENTS := by
    simp only [FENWICK_EVENTS, List.mem_cons, List.not_mem_nil, or_false] at h'
    simp only [CORSI_EVENTS, List.mem_cons, List.not_mem_nil, or_false]
    tauto
  simpa using hc

/-- C4: `calculateCorsiPercent f a` returns exactly `50` when `f + a = 0`
and `100 * f / (f + a)` otherwise, and `calculateGoalsForPercent` satisfies
the same equations; in particular both are `50` at `(0, 0)`. -/
theorem percent_tie_break (f a : ℚ) :
    calculateCorsiPercent f a = (if f + a = 0 then 50 else 100 * f / (f + a)) ∧
    calculateGoalsForPercent f a = (if f + a = 0 then 50 else 100 * f / (f + a)) ∧
    calculateCorsiPercent 0 0 = 50 ∧ calculateGoalsForPercent 0 0 = 50 := by
  refine ⟨?_, ?_, by norm_num [calculateCorsiPercent], by norm_num [calculateGoalsForPercent]⟩
  · simp only [calculateCorsiPercent]
    split_ifs <;> [rfl; ring]
  · simp only [calculateGoalsForPercent]
    split_ifs <;> [rfl; ring]

/-- C5: for nonnegative shot counts, `calculatePDO` is the sum of the
shooting percentage (`gf/sf*100`, or `0` when `sf = 0`) and the save
percentage (`(sa-ga)/sa*100`, or `100` when `sa = 0`); in particular
`calculatePDO 0 0 0 0 = 100`. -/
theorem calculatePDO_spec (gf sf ga sa : ℚ) (hsf : 0 ≤ sf) (hsa : 0 ≤ sa) :
    calculatePDO gf sf ga sa =
      (if sf = 0 then 0 else gf / sf * 100) +
        (if sa = 0 then 100 else (sa - ga) / sa * 100) ∧
    calculatePDO 0 0 0 0 = 100 := by
  constructor
  · unfold calculatePDO
    by_cases hf : sf = 0
    · by_cases ha : sa = 0
      · simp [hf, ha]
      · have ha' : sa > 0 := lt_of_le_of_ne hsa (Ne.symm ha)
        simp [hf, ha, ha']
    · have hf' : sf > 0 := lt_of_le_of_ne hsf (Ne.symm hf)
      by_cases ha : sa = 0
      · simp [hf, hf', ha]
      · have ha' : sa > 0 := lt_of_le_of_ne hsa (Ne.symm ha)
        simp [hf, hf', ha, ha']
  · norm_num [calculatePDO]

/-- Witness for C5 at concrete nonnegative counts. -/
theorem calculatePDO_spec_witness : calculatePDO 1 2 1 4 = 125 := by
  have h := (calculatePDO_spec 1 2 1 4 (by norm_num) (by norm_num)).1
  norm_num at h
  linarith

/-- C6: `normalizeToAttackingZone x y` returns `(-x, -y)` when `x < 0` and
`(x, y)` unchanged otherwise; consequently every already-normalized point
(`0 ≤ x`) is a fixed point. -/
theorem normalizeToAttackingZone_spec (x y : ℚ) :
    (x < 0 → normalizeToAttackingZone x y = (-x, -y)) ∧
    (¬ x < 0 → normalizeToAttackingZone x y = (x, y)) ∧
    (0 ≤ x → normalizeToAttackingZone x y = (x, y)) := by
  unfold normalizeToAttackingZone
  exact ⟨fun h => if_pos h, fun h => if_neg h, fun h => if_neg (not_lt.mpr h)⟩

/-- Witness for C6 at concrete points on both sides of the rink. -/
theorem normalizeToAttackingZone_spec_witness :
    normalizeToAttackingZone (-3) 2 = (3, -2) ∧ normalizeToAttackingZone 3 2 = (3, 2) := by
  constructor
  · have h := (normalizeToAttackingZone_spec (-3) 2).1 (by norm_num)
    simpa using h
  · exact (normalizeToAttackingZone_spec 3 2).2.2 (by norm_num)

/-- C7 counterexample: the claim asserts that for some `(0, y)` applying
`normalizeToAttackingZone` twice does not return `(0, y)`; in fact the
boundary `x = 0` is a fixed point, so no such `y` exists. -/
theorem normalize_twice_at_zero_claim_false :
    ¬ ∃ y : ℚ,
        normalizeToAttackingZone (normalizeToAttackingZone 0 y).1
            (normalizeToAttackingZone 0 y).2 ≠ (0, y) := by
  rintro ⟨y, hy⟩
  exact hy (by simp [normalizeToAttackingZone])

/-- C7 amended: applying `normalizeToAttackingZone` twice to any boundary
point `(0, y)` returns `(0, y)`: the composition is the identity at
`x = 0`. -/
theorem normalize_twice_at_zero_id (y : ℚ) :
    normalizeToAttackingZone (normalizeToAttackingZone 0 y).1
        (normalizeToAttackingZone 0 y).2 = (0, y) := by
  simp [normalizeToAttackingZone]

/-- C2 amended: for every pair of input event lists, the flow returned by
`generateCorsiFlow` is ordered (non-strictly) by `(period, clockTime)`
ascending, where clock times are compared as strings — which coincides with
within-period time order for zero-padded "MM:SS" strings; both running
counters are non-decreasing from each point to the next; and every point's
differential equals its home count minus its away count.  (Strict ordering
fails when two events share a timestamp; see the counterexample.) -/
theorem generateCorsiFlow_flow_properties (homeShots awayShots : List Shot) :
    ((generateCorsiFlow homeShots awayShots).Pairwise
        fun p q => keyLe (pointKey p) (pointKey q)) ∧
    ((generateCorsiFlow homeShots awayShots).Chain'
        fun p q => p.homeCorsi ≤ q.homeCorsi ∧ p.awayCorsi ≤ q.awayCorsi) ∧
    ∀ p ∈ generateCorsiFlow homeShots awayShots,
      p.differential = (p.homeCorsi : ℤ) - (p.awayCorsi : ℤ) := by
  refine ⟨?_, corsiFlowAux_chain _ 0 0, fun p hp => corsiFlowAux_differential _ 0 0 p hp⟩
  have hsorted : (List.insertionSort shotOrder
      (homeShots.map (fun s => TaggedShot.mk s Team.home) ++
        awayShots.map (fun s => TaggedShot.mk s Team.away))).Pairwise shotOrder :=
    List.sorted_insertionSort shotOrder _
  have hfilter : ((List.insertionSort shotOrder
      (homeShots.map (fun s => TaggedShot.mk s Team.home) ++
        awayShots.map (fun s => TaggedShot.mk s Team.away))).filter
          (fun shot => CORSI_EVENTS.contains shot.type)).Pairwise shotOrder :=
    hsorted.sublist (List.filter_sublist _)
  simp only [generateCorsiFlow]
  refine List.pairwise_map.mp ?_
  rw [corsiFlowAux_map_pointKey]
  exact List.pairwise_map.mpr hfilter

/-- Witness for C2 at a concrete input: the differential equation holds at
an explicit member of a concrete flow. -/
theorem generateCorsiFlow_flow_properties_witness :
    ({ period := 1, time := "05:00", timeRemaining := "05:00", type := "goal",
       homeCorsi := 1, awayCorsi := 0, differential := 1 } : CorsiFlowPoint).differential = 1 - 0 :=
  (generateCorsiFlow_flow_properties
      [{ eventId := 0, period := 1, time := "05:00", type := "goal", x := 0, y := 0 }]
      []).2.2 _ (by decide)

/-- C2 counterexample: with one home and one away event carrying the same
`(period, clockTime)`, the flow contains two points with identical keys, so
it is not strictly ordered by `(period, clockTime)`. -/
theorem generateCorsiFlow_not_strictly_ordered :
    ¬ ((generateCorsiFlow
          [{ eventId := 0, period := 1, time := "05:00", type := "goal", x := 0, y := 0 }]
          [{ eventId := 1, period := 1, time := "05:00", type := "goal", x := 0, y := 0 }]).Pairwise
        fun p q => keyLt (pointKey p) (pointKey q)) := by
  decide

/-- C10: for every pair of input event lists, the flow's length is
`calculateCorsiFor homeShots + calculateCorsiFor awayShots`, and when the
flow is non-empty its last point carries exactly those two totals as its
running counters. -/
theorem generateCorsiFlow_totals (homeShots awayShots : List Shot) :
    (generateCorsiFlow homeShots awayShots).length
        = calculateCorsiFor homeShots + calculateCorsiFor awayShots ∧
    ∀ p, (generateCorsiFlow homeShots awayShots).getLast? = some p →
      p.homeCorsi = calculateCorsiFor homeShots ∧
      p.awayCorsi = calculateCorsiFor awayShots := by
  constructor
  · simp only [generateCorsiFlow]
    rw [corsiFlowAux_length, ← List.countP_eq_length_filter,
      (List.perm_insertionSort shotOrder _).countP_eq, List.countP_append,
      List.countP_map, List.countP_map]
    unfold calculateCorsiFor
    rw [← List.countP_eq_length_filter, ← List.countP_eq_length_filter]
    rfl
  · intro p hp
    simp only [generateCorsiFlow] at hp
    obtain ⟨h1, h2⟩ := corsiFlowAux_getLast _ 0 0 p hp
    unfold calculateCorsiFor
    rw [h1, h2, List.countP_filter, List.countP_filter,
      (List.perm_insertionSort shotOrder _).countP_eq,
      (List.perm_insertionSort shotOrder _).countP_eq,
      List.countP_append, List.countP_append,
      List.countP_map, List.countP_map, List.countP_map, List.countP_map,
      ← List.countP_eq_length_filter, ← List.countP_eq_length_filter]
    constructor <;> simp [Function.comp_def]

/-- Witness for C10: the last point of a concrete two-event flow carries
the two Corsi totals. -/
theorem generateCorsiFlow_totals_witness :
    ({ period := 1, time := "10:00", timeRemaining := "10:00", type := "shot-on-goal",
       homeCorsi := 1, awayCorsi := 1, differential := 0 } : CorsiFlowPoint).homeCorsi
        = calculateCorsiFor
            [{ eventId := 0, period := 1, time := "05:00", type := "goal", x := 0, y := 0 }] :=
  ((generateCorsiFlow_totals
      [{ eventId := 0, period := 1, time := "05:00", type := "goal", x := 0, y := 0 }]
      [{ eventId := 1, period := 1, time := "10:00", type := "shot-on-goal", x := 0, y := 0 }]).2
    _ (by decide)).1

/-- C8: for every well-formed zero-padded "MM:SS" clock string (numeric
components, minutes ≤ 99, seconds a valid count ≤ 59) and every period
`p ≥ 1`, `timeToSeconds` computes `(p-1)*1200 + minutes*60 + seconds`;
`secondsToTime` inverts it on within-period offsets (period 1), while for
some well-formed string and some period `p ≥ 2` the round trip fails
because `secondsToTime` does not subtract the period offset. -/
theorem timeConversion_spec :
    (∀ t : String, ∀ m s : ℕ, m ≤ 99 → s ≤ 59 → t = clockString m s →
      (∀ p : ℤ, 1 ≤ p →
        timeToSeconds t p = some ((p - 1) * 1200 + (m : ℤ) * 60 + (s : ℤ))) ∧
      ∃ v : ℤ, timeToSeconds t 1 = some v ∧ 0 ≤ v ∧ secondsToTime v.toNat = t) ∧
    ∃ t : String, WellFormedClock t ∧ ∃ p : ℤ, 2 ≤ p ∧ ∃ v : ℤ,
      timeToSeconds t p = some v ∧ 0 ≤ v ∧ secondsToTime v.toNat ≠ t := by
  constructor
  · rintro t m s hm hs rfl
    refine ⟨fun p _ => timeToSeconds_clock m s hm hs p, ((m * 60 + s : ℕ) : ℤ), ?_, ?_, ?_⟩
    · rw [timeToSeconds_clock m s hm hs 1]
      push_cast
      ring_nf
    · positivity
    · rw [Int.toNat_natCast]
      exact secondsToTime_clock m s hs
  · refine ⟨clockString 0 0, ⟨0, 0, by norm_num, by norm_num, rfl⟩, 2, le_refl _, 1200,
      by decide, by decide, by decide⟩

/-- Witness for C8 at the concrete clock string "05:30" in period 2. -/
theorem timeConversion_spec_witness : timeToSeconds "05:30" 2 = some 1530 := by
  have h := ((timeConversion_spec.1 "05:30" 5 30 (by norm_num) (by norm_num) (by decide)).1)
    2 (by norm_num)
  simpa using h

/-- C9: a clock string whose minute or second component fails numeric
parsing (such as "ab:cd") makes `timeToSeconds` fail — in the embedding the
JS `NaN` outcome is `none`: the call yields no numeric value, and the
failure is local to that call. -/
theorem timeToSeconds_malformed (time : String) (p : ℤ)
    (h : ((jsSplitColon time).map jsNumber).getD 0 none = none ∨
         ((jsSplitColon time).map jsNumber).getD 1 none = none) :
    timeToSeconds time p = none := by
  unfold timeToSeconds
  split
  · rename_i m s hm hs
    rcases h with h | h <;> simp_all
  · rfl

/-- Witness for C9 at the concrete malformed string "ab:cd". -/
theorem timeToSeconds_malformed_witness : timeToSeconds "ab:cd" 7 = none :=
  timeToSeconds_malformed "ab:cd" 7 (Or.inl (by decide))

end OilersAnalytics
